import Mathlib

/-!
Verification development for `cargo-appimage` (`src/main.rs`).

The program is shallowly embedded at the byte level: Rust `&str`/`Path` values
are modelled as lists of bytes (`List Nat`), because the program indexes its
strings with byte slices (`&line[1..]`).  The host filesystem is modelled as a
finite map from component-split absolute paths to file contents; external
processes (`ldd`/`awk`, `cargo build`, `appimagetool`) are modelled by their
observable interface (their output lines / success flag), as they are not part
of this repository.
-/

namespace CargoAppimage

/-- Byte list of an ASCII string (code points; equal to the UTF-8 bytes for the
ASCII data that appears in this development). -/
def bytes (s : String) : List Nat := s.toList.map Char.toNat

/-- The path separator byte `/`. -/
def sep : Nat := 47

/-- Split a byte path on the separator, keeping empty segments. -/
def splitSepAux : List Nat → List Nat → List (List Nat)
  | [], acc => [acc.reverse]
  | b :: bs, acc =>
    if b = sep then acc.reverse :: splitSepAux bs [] else splitSepAux bs (b :: acc)

/-- Normalized path components, as Rust `Path::components` produces them:
empty segments (repeated or leading separators) and `.` segments are dropped. -/
def comps (p : List Nat) : List (List Nat) :=
  (splitSepAux p []).filter (fun c => !(c == []) && !(c == [46]))

/-- Rust `Path::file_name`: the last normalized component, `none` when there is
none or the path ends in `..`. -/
def fileName (p : List Nat) : Option (List Nat) :=
  match (comps p).getLast? with
  | some c => if c = [46, 46] then none else some c
  | none => none

/-- Rebuild a byte path from components, separated by `/`. -/
def joinComps : List (List Nat) → List Nat
  | [] => []
  | [c] => c
  | c :: cs => c ++ sep :: joinComps cs

/-- Rust `Path::parent`: drop the last component; `none` for the root or the
empty path. -/
def parentPath (p : List Nat) : Option (List Nat) :=
  match comps p with
  | [] => none
  | cs =>
    if p.head? = some sep then some (sep :: joinComps cs.dropLast)
    else some (joinComps cs.dropLast)

/-- Rust `Path::join`: an absolute right operand replaces the left operand,
otherwise the right operand is appended behind a separator. -/
def joinPath (base arg : List Nat) : List Nat :=
  if arg.head? = some sep then arg else base ++ sep :: arg

/-- Host filesystem: a finite map from component-split absolute paths to the
byte contents of the regular file stored there.  Directories are exactly the
strict prefixes of file paths. -/
structure HostFs where
  files : List (List (List Nat) × List Nat)

/-- Content of the host file at byte path `p`, if any (paths are compared after
component normalization, as the kernel resolves them). -/
def hostContent (h : HostFs) (p : List Nat) : Option (List Nat) :=
  (h.files.find? (fun f => f.1 == comps p)).map (fun f => f.2)

/-- Does a regular file exist on the host at byte path `p`? -/
def hostIsFile (h : HostFs) (p : List Nat) : Bool :=
  (hostContent h p).isSome

/-- Does the componentized path `cs` exist on the host (as a file or as a
directory, i.e. a strict prefix of a file path)? -/
def hostExistsComps (h : HostFs) (cs : List (List Nat)) : Bool :=
  h.files.any (fun f => f.1 == cs || (cs.isPrefixOf f.1 && !(cs == f.1)))

/-- Staging directory contents: symlink name ↦ symlink target (raw bytes), in
creation order. -/
abbrev Staging := List (List Nat × List Nat)

/-- Look a symlink name up in the staging directory. -/
def stagingLookup (st : Staging) (n : List Nat) : Option (List Nat) :=
  (st.find? (fun e => e.1 == n)).map (fun e => e.2)

/-- Models `lib_dir_staged.join(&line[1..]).exists()` (main.rs line 108/109):
resolving `rel` inside the staging directory follows the first component as a
symlink into the host filesystem (`Path::exists` follows symlinks). -/
def stagedJoinExists (h : HostFs) (st : Staging) (rel : List Nat) : Bool :=
  match comps rel with
  | [] => true
  | c :: rest =>
    match stagingLookup st c with
    | some t => hostExistsComps h (comps t ++ rest)
    | none => false

/-- Errors of the staging loop (main.rs lines 106-120). -/
inductive StageError where
  /-- Slicing `&line[1..]` on an empty line: byte-slice index out of bounds (a Rust
  panic). -/
  | sliceOutOfBounds (line : List Nat)
  /-- Rust `Path::new(line).file_name()` returned `None` (context "No filename"). -/
  | noFileName (line : List Nat)
  /-- Calling `std::os::unix::fs::symlink` failed because the staged name already
  exists (EEXIST), surfaced by the `?` at main.rs line 115-116. -/
  | symlinkFailed (line : List Nat)
deriving DecidableEq, Repr

/-- One iteration of the staging loop (main.rs lines 107-119), in source
evaluation order: the byte slice `&line[1..]` is taken (and panics on an empty
line) before `line.starts_with('/')` is tested. -/
def stageStep (h : HostFs) (acc : Staging × List (List Nat)) (line : List Nat) :
    Except StageError (Staging × List (List Nat)) :=
  if line.isEmpty then .error (.sliceOutOfBounds line)
  else
    let rel := line.drop 1
    if line.head? == some sep && !stagedJoinExists h acc.1 rel then
      match fileName line with
      | none => .error (.noFileName line)
      | some f =>
        if (stagingLookup acc.1 f).isSome then .error (.symlinkFailed line)
        else .ok (acc.1 ++ [(f, line)], acc.2 ++ [f])
    else .ok acc

/-- The staging loop over all dependency-lister output lines. -/
def stageLoop (h : HostFs) (acc : Staging × List (List Nat)) :
    List (List Nat) → Except StageError (Staging × List (List Nat))
  | [] => .ok acc
  | l :: ls =>
    match stageStep h acc l with
    | .error e => .error e
    | .ok acc1 => stageLoop h acc1 ls

/-- Models `stage_libs` (main.rs lines 60-121) after the external `ldd`/`awk`
pipeline produced `lines`.  `fs_extra::dir::create(lib_dir_staged, true)` at
line 104 erases the staging directory, so every run starts from an empty
staging directory regardless of earlier runs.  Returns the final staging
contents and the names of the newly created symlinks (the Rust code returns
`lib_dir_staged.join(name)` for each such name). -/
def stage_libs (h : HostFs) (lines : List (List Nat)) :
    Except StageError (Staging × List (List Nat)) :=
  stageLoop h ([], []) lines

/-- Fuel-driven core of the glob matcher: `*` (byte 42) matches any byte
sequence, `?` (byte 63) matches one byte, every other byte matches itself.
Each recursive call shrinks `pat.length + s.length`, so
`pat.length + s.length + 1` fuel is always enough. -/
def globMatchFuel : Nat → List Nat → List Nat → Bool
  | 0, _, _ => false
  | _ + 1, [], s => s.isEmpty
  | fuel + 1, b :: ps, s =>
    if b = 42 then
      globMatchFuel fuel ps s ||
        (match s with
         | [] => false
         | _ :: s1 => globMatchFuel fuel (b :: ps) s1)
    else
      match s with
      | [] => false
      | c :: s1 => (b = 63 || b = c) && globMatchFuel fuel ps s1

/-- Models `glob::Pattern::matches` for patterns built from `*`, `?` and
literal bytes (the pattern forms used by this development; filenames contain
no separators, so the component restriction of the glob crate is vacuous). -/
def globMatch (pat s : List Nat) : Bool :=
  globMatchFuel (pat.length + s.length + 1) pat s

/-- Models the exclusion test at main.rs lines 252-257:
`link_exclude_list.iter().any(|p| p.matches(file_name))`. -/
def excluded (pats : List (List Nat)) (name : List Nat) : Bool :=
  pats.any (fun p => globMatch p name)

/-- Models `glob::Pattern::new` succeeding (main.rs lines 203-211): a pattern
is rejected when a `[` character class is left unclosed. -/
def patternOkAux : Bool → List Nat → Bool
  | inCls, [] => !inCls
  | true, b :: bs => patternOkAux (!(b == 93)) bs
  | false, b :: bs => patternOkAux (b == 91) bs

/-- A glob pattern compiles without a syntax error. -/
def patternOk (p : List Nat) : Bool := patternOkAux false p

/-- Errors of the bundle-tree materializer loop (main.rs lines 248-281). -/
inductive MatError where
  /-- Rust `link.parent()` returned `None` (context "has no parent dir"). -/
  | noParent (target : List Nat)
  /-- Slicing `&parent[1..]` byte-slices an empty string: a Rust panic (relative
  single-component symlink target). -/
  | parentSlicePanic (target : List Nat)
  /-- Copying via `std::fs::copy(&link, &dest)` failed: no file at the symlink target. -/
  | copyFailed (target : List Nat)
deriving DecidableEq, Repr

/-- File writes performed into the bundle: destination byte path ↦ content. -/
abbrev Writes := List (List Nat × List Nat)

/-- One iteration of the materializer loop (main.rs lines 249-281) on the
staged entry `e` (symlink name, symlink target): skip when the entry name
matches the exclude list, otherwise create the parent directory tree
`appdirpath.join(&parent[1..])` (directories are not tracked as writes) and
copy the target file's bytes to `appdirpath.join(&target[1..])`. -/
def matStep (h : HostFs) (pats : List (List Nat)) (root : List Nat)
    (ws : Writes) (e : List Nat × List Nat) : Except MatError Writes :=
  if excluded pats e.1 then .ok ws
  else
    match parentPath e.2 with
    | none => .error (.noParent e.2)
    | some par =>
      if par.isEmpty then .error (.parentSlicePanic e.2)
      else
        match hostContent h e.2 with
        | some c => .ok (ws ++ [(joinPath root (e.2.drop 1), c)])
        | none => .error (.copyFailed e.2)

/-- The materializer loop over all staged entries. -/
def matLoop (h : HostFs) (pats : List (List Nat)) (root : List Nat) :
    Writes → Staging → Except MatError Writes
  | ws, [] => .ok ws
  | ws, e :: es =>
    match matStep h pats root ws e with
    | .error err => .error err
    | .ok ws1 => matLoop h pats root ws1 es

/-- Models the bundle-tree materializer (main.rs lines 248-281): walk the
staging directory entries and copy each non-excluded symlink target into the
bundle root at its absolute path stripped of the leading separator. -/
def materialize (h : HostFs) (pats : List (List Nat)) (root : List Nat)
    (entries : Staging) : Except MatError Writes :=
  matLoop h pats root [] entries

/-- The manifest-derived configuration, as main.rs extracts it from
`Cargo.toml` (lines 130-132, 157-226): package name and version, the per-bin
optional names, and the `package.metadata.appimage` table fields. -/
structure Config where
  pkgName : List Nat
  version : List Nat
  bins : List (Option (List Nat))
  assets : List (List Nat)
  autoLink : Bool
  argsExtra : List (List Nat)
  excludeRaw : List (List Nat)

/-- The external world as main.rs observes it: outcome of `cargo build`, the
host filesystem, the `ldd`/`awk` output per inspected binary path, the
pre-existing per-AppDir staging directory contents (`none` when the `libs`
directory does not exist), the icon file, the asset-copy and
`appimagetool`/runner outcomes, and the cargo target directory and
target/profile subpath. -/
structure Env where
  buildOk : Bool
  host : HostFs
  lddOut : List Nat → List (List Nat)
  libsPre : List Nat → Option Staging
  icon : Option (List Nat)
  assetsOk : Bool
  runner : Option (List Nat)
  toolOk : Bool
  targetDir : List Nat
  target : List Nat

/-- Observable events of one run, in order of occurrence. -/
inductive Ev where
  /-- The external `cargo build` command was invoked (main.rs line 144). -/
  | build
  /-- Function `stage_libs` was invoked for a binary: the `ldd` loader-dependency
  lister and the staging symlinker (main.rs lines 238-246). -/
  | stageCall (name : List Nat)
  /-- The materializer loop over the staging directory ran (lines 248-281). -/
  | matCall (name : List Nat)
  /-- The built binary was copied into `usr/bin` (lines 284-293). -/
  | binCopy (name : List Nat)
  /-- The icon was copied or generated (lines 295-303). -/
  | iconStep (name : List Nat)
  /-- Configured assets were copied (lines 304-314). -/
  | assetStep (name : List Nat)
  /-- The desktop entry was written (lines 315-326). -/
  | desktopStep (name : List Nat)
  /-- The AppRun launcher was copied in (lines 327-334). -/
  | runnerStep (name : List Nat)
  /-- Tool `appimagetool` was invoked (lines 342-348). -/
  | toolCall (name : List Nat)
deriving DecidableEq, Repr

/-- Fatal errors of a run of `main`. -/
inductive MainError where
  /-- Command `cargo build` exited unsuccessfully (main.rs lines 144-147). -/
  | buildFailed
  /-- An `auto_link_exclude_list` item is not a valid glob (lines 203-211). -/
  | invalidGlob (p : List Nat)
  /-- Function `stage_libs` failed (line 245). -/
  | stageFailed (e : StageError)
  /-- The materializer loop failed (lines 248-281). -/
  | matFailed (e : MatError)
  /-- The built binary is missing at `<target_dir>/<target>/<name>`
  ("Cannot find binary file at ...", lines 284-293). -/
  | binaryNotFound (p : List Nat)
  /-- Calling `fs_extra::copy_items` on the assets failed (line 314). -/
  | assetsFailed
  /-- The `cargo-appimage-runner` binary was not found (line 327). -/
  | runnerMissing
  /-- Spawning `appimagetool` failed (line 348). -/
  | toolFailed
deriving DecidableEq, Repr

/-- Accumulated observable run state: the event trace and the file writes. -/
structure RunState where
  evs : List Ev
  out : Writes
deriving DecidableEq, Repr

/-- The desktop-entry file contents written at main.rs lines 315-320, with the
binary name as both the display name and the executable entry. -/
def desktopContent (name : List Nat) : List Nat :=
  bytes "[Desktop Entry]\nName=" ++ name ++ bytes "\nExec=" ++ name ++
    bytes "\nIcon=icon\nType=Application\nCategories=Utility;"

/-- Per-binary bundle work, modelling one iteration of the loop at main.rs
lines 228-349.  An absent explicit bin name defaults to the package name
(line 229).  When `auto_link` is false the pre-existing `libs` directory (if
any) still drives the materializer loop, because line 248 only tests
`lib_dir_staged.exists()`.  Returns the updated run state and `some` error
when the run aborts. -/
def runBin (env : Env) (cfg : Config) (pats : List (List Nat))
    (st : RunState) (b : Option (List Nat)) : RunState × Option MainError :=
  let name := b.getD cfg.pkgName
  let appdir := joinPath env.targetDir (name ++ bytes ".AppDir")
  let srcBin := joinPath (joinPath env.targetDir env.target) name
  let stagedE : Except StageError (Option Staging) :=
    if cfg.autoLink then
      (stage_libs env.host (env.lddOut srcBin)).map (fun r => some r.1)
    else .ok (env.libsPre (joinPath appdir (bytes "libs")))
  let evs1 := st.evs ++ (if cfg.autoLink then [Ev.stageCall name] else [])
  match stagedE with
  | .error e => (⟨evs1, st.out⟩, some (.stageFailed e))
  | .ok entriesOpt =>
    let evs2 := evs1 ++
      (match entriesOpt with
       | some _ => [Ev.matCall name]
       | none => [])
    match
      (match entriesOpt with
       | some entries => materialize env.host pats appdir entries
       | none => .ok []) with
    | .error e => (⟨evs2, st.out⟩, some (.matFailed e))
    | .ok ws =>
      let out2 := st.out ++ ws
      let evs3 := evs2 ++ [Ev.binCopy name]
      match hostContent env.host srcBin with
      | none => (⟨evs3, out2⟩, some (.binaryNotFound srcBin))
      | some bc =>
        let out3 := out2 ++ [(joinPath appdir (bytes "usr/bin/" ++ name), bc)]
        let evs4 := evs3 ++ [Ev.iconStep name]
        let out4 := out3 ++ [(joinPath appdir (bytes "icon.png"), env.icon.getD [])]
        let evs5 := evs4 ++ [Ev.assetStep name]
        if !env.assetsOk then (⟨evs5, out4⟩, some .assetsFailed)
        else
          let out5 := out4 ++
            [(joinPath appdir (bytes "cargo-appimage.desktop"), desktopContent name)]
          let evs6 := evs5 ++ [Ev.desktopStep name]
          match env.runner with
          | none => (⟨evs6, out5⟩, some .runnerMissing)
          | some rc =>
            let out6 := out5 ++ [(joinPath appdir (bytes "AppRun"), rc)]
            let evs7 := evs6 ++ [Ev.runnerStep name, Ev.toolCall name]
            if !env.toolOk then (⟨evs7, out6⟩, some .toolFailed)
            else (⟨evs7, out6⟩, none)

/-- The loop over the manifest's binaries (main.rs line 228), aborting on the
first error. -/
def binsLoop (env : Env) (cfg : Config) (pats : List (List Nat)) :
    RunState → List (Option (List Nat)) → RunState × Option MainError
  | st, [] => (st, none)
  | st, b :: bs =>
    match runBin env cfg pats st b with
    | (st1, none) => binsLoop env cfg pats st1 bs
    | (st1, some e) => (st1, some e)

/-- Models `main` from the build invocation on (main.rs lines 134-349): run
`cargo build` (always invoked, before anything else), then parse the
`appimage` metadata table — validating the `auto_link_exclude_list` glob
patterns at lines 203-211 and failing on the first invalid one — then process
each binary. -/
def mainRun (env : Env) (cfg : Config) : RunState × Option MainError :=
  let st0 : RunState := ⟨[Ev.build], []⟩
  if !env.buildOk then (st0, some .buildFailed)
  else
    match cfg.excludeRaw.find? (fun p => !patternOk p) with
    | some p => (st0, some (.invalidGlob p))
    | none => binsLoop env cfg cfg.excludeRaw st0 cfg.bins

/-- Concrete host filesystem: shared libraries at their usual locations, two
of them sharing the base filename `libssl.so.3`. -/
def hostLibs : HostFs :=
  ⟨[([bytes "usr", bytes "lib", bytes "libssl.so.3"], bytes "SSL1"),
    ([bytes "opt", bytes "lib", bytes "libssl.so.3"], bytes "SSL2"),
    ([bytes "usr", bytes "lib", bytes "libfoo.so.1"], bytes "FOO"),
    ([bytes "usr", bytes "lib", bytes "libbar.so.2"], bytes "BAR")]⟩

/-- Concrete host filesystem for whole runs: the built binary at
`/t/release/app`, plus one shared library. -/
def hostRun : HostFs :=
  ⟨[([bytes "t", bytes "release", bytes "app"], bytes "ELF"),
    ([bytes "usr", bytes "lib", bytes "libx.so"], bytes "XLIB")]⟩

/-- A benign environment: build succeeds, binary present, no icon file, no
pre-existing staging directories, runner and tool available. -/
def envGood : Env :=
  ⟨true, hostRun, fun _ => [], fun _ => none, none, true,
   some (bytes "RUN"), true, bytes "/t", bytes "release"⟩

/-- Like `envGood`, but the built binary is absent from the host. -/
def envNoBin : Env :=
  ⟨true, ⟨[([bytes "usr", bytes "lib", bytes "libx.so"], bytes "XLIB")]⟩,
   fun _ => [], fun _ => none, none, true,
   some (bytes "RUN"), true, bytes "/t", bytes "release"⟩

/-- Like `envGood`, but a stale staging directory `/t/app.AppDir/libs`
already exists, holding a symlink to `/usr/lib/libx.so`. -/
def envStale : Env :=
  ⟨true, hostRun, fun _ => [],
   fun p => if p = bytes "/t/app.AppDir/libs"
            then some [(bytes "libx.so", bytes "/usr/lib/libx.so")] else none,
   none, true, some (bytes "RUN"), true, bytes "/t", bytes "release"⟩

/-- A minimal configuration: package `app`, one unnamed bin target,
auto-linking disabled, nothing else configured. -/
def cfgGood : Config :=
  ⟨bytes "app", bytes "1.0.0", [none], [], false, [], []⟩

/-- Like `cfgGood`, but with an invalid glob pattern (unclosed character
class) in `auto_link_exclude_list`. -/
def cfgBadGlob : Config :=
  ⟨bytes "app", bytes "1.0.0", [none], [], false, [], [bytes "["]⟩

/- ---------------------------------------------------------------------------
Theorems.
--------------------------------------------------------------------------- -/

/-- Splitting a path that starts with the separator yields the components of
its tail. -/
theorem comps_sep_cons (t : List Nat) : comps (sep :: t) = comps t := by
  simp [comps, splitSepAux]

/-- For a line starting with `/`, dropping the leading byte does not change
the path components. -/
theorem comps_drop_one {l : List Nat} (h : l.head? = some sep) :
    comps (l.drop 1) = comps l := by
  cases l with
  | nil => simp at h
  | cons b t =>
    have hb : b = sep := by simpa using h
    subst hb
    simp [comps_sep_cons]

/-- A path with a filename has at least one component. -/
theorem fileName_comps_ne_nil {p f : List Nat} (h : fileName p = some f) :
    comps p ≠ [] := by
  intro hnil
  unfold fileName at h
  rw [hnil] at h
  simp at h

/-- Looking up a name different from the appended entry's name is unchanged. -/
theorem stagingLookup_append (st : Staging) (e : List Nat × List Nat)
    (n : List Nat) (hne : e.1 ≠ n) :
    stagingLookup (st ++ [e]) n = stagingLookup st n := by
  unfold stagingLookup
  rw [List.find?_append]
  have he : (fun x : List Nat × List Nat => x.1 == n) e = false := by
    simpa using hne
  cases hf : st.find? (fun x => x.1 == n) with
  | some v => simp [Option.or]
  | none => simp [Option.or, List.find?, he]

/-- In an empty staging directory no joined path with components exists. -/
theorem stagedJoinExists_nil_staging (h : HostFs) (rel : List Nat)
    (hne : comps rel ≠ []) : stagedJoinExists h [] rel = false := by
  unfold stagedJoinExists
  cases hc : comps rel with
  | nil => exact absurd hc hne
  | cons c rest => simp [stagingLookup, List.find?]

/-- Reduction of the existence check when the components are known. -/
theorem stagedJoinExists_cons (h : HostFs) (st : Staging) (rel c : List Nat)
    (rest : List (List Nat)) (hc : comps rel = c :: rest) :
    stagedJoinExists h st rel =
      (match stagingLookup st c with
       | some t => hostExistsComps h (comps t ++ rest)
       | none => false) := by
  unfold stagedJoinExists
  rw [hc]

/-- Appending a staged entry whose name differs from the first component of
`rel` preserves a failing existence check. -/
theorem stagedJoinExists_append_false (h : HostFs) (st : Staging)
    (e : List Nat × List Nat) (rel : List Nat)
    (hfalse : stagedJoinExists h st rel = false)
    (hne : ∀ c rest, comps rel = c :: rest → c ≠ e.1) :
    stagedJoinExists h (st ++ [e]) rel = false := by
  cases hc : comps rel with
  | nil =>
    rw [stagedJoinExists] at hfalse
    rw [hc] at hfalse
    simp at hfalse
  | cons c rest =>
    rw [stagedJoinExists_cons h st rel c rest hc] at hfalse
    rw [stagedJoinExists_cons h (st ++ [e]) rel c rest hc]
    rw [stagingLookup_append st e c (Ne.symm (hne c rest hc))]
    exact hfalse

/-- A staging directory holding one entry with a different name than the first
component of `rel` fails the existence check. -/
theorem stagedJoinExists_single_ne (h : HostFs) (f tgt rel : List Nat)
    (hne : comps rel ≠ []) (hhd : (comps rel).head? ≠ some f) :
    stagedJoinExists h [(f, tgt)] rel = false := by
  unfold stagedJoinExists
  cases hc : comps rel with
  | nil => exact absurd hc hne
  | cons c rest =>
    have hcf : ¬ (f = c) := by
      intro hfc
      rw [hc] at hhd
      exact hhd (by simp [hfc])
    have he : ((f, tgt).1 == c) = false := by simpa using hcf
    simp [stagingLookup, List.find?, he]

/-- The staging step on an empty line: the byte slice panics. -/
theorem stageStep_empty_line (h : HostFs) (acc : Staging × List (List Nat)) :
    stageStep h acc [] = .error (.sliceOutOfBounds []) := rfl

/-- The staging step on a non-empty line not starting with `/` silently does
nothing. -/
theorem stageStep_skip (h : HostFs) (acc : Staging × List (List Nat))
    (l : List Nat) (hne : l ≠ []) (hnabs : l.head? ≠ some sep) :
    stageStep h acc l = .ok acc := by
  cases l with
  | nil => exact absurd rfl hne
  | cons b t =>
    have hb : ¬ (b = sep) := by
      intro hb
      exact hnabs (by simp [hb])
    simp [stageStep, hb]

/-- The staging step on an absolute line with a fresh base filename and a
failing existence check creates the symlink. -/
theorem stageStep_creates (h : HostFs) (acc : Staging × List (List Nat))
    (l f : List Nat) (habs : l.head? = some sep) (hfn : fileName l = some f)
    (hex : stagedJoinExists h acc.1 (l.drop 1) = false)
    (hlk : stagingLookup acc.1 f = none) :
    stageStep h acc l = .ok (acc.1 ++ [(f, l)], acc.2 ++ [f]) := by
  cases l with
  | nil => simp at habs
  | cons b t =>
    have hb : b = sep := by simpa using habs
    subst hb
    simp only [List.drop_succ_cons, List.drop_zero] at hex
    simp [stageStep, hex, hfn, hlk]

/-- The staging step on an absolute line whose base filename is already staged
(and whose joined path does not exist) fails with a symlink error. -/
theorem stageStep_dup (h : HostFs) (acc : Staging × List (List Nat))
    (l f : List Nat) (habs : l.head? = some sep) (hfn : fileName l = some f)
    (hex : stagedJoinExists h acc.1 (l.drop 1) = false)
    (hlk : (stagingLookup acc.1 f).isSome = true) :
    stageStep h acc l = .error (.symlinkFailed l) := by
  cases l with
  | nil => simp at habs
  | cons b t =>
    have hb : b = sep := by simpa using habs
    subst hb
    simp only [List.drop_succ_cons, List.drop_zero] at hex
    simp [stageStep, hex, hfn, hlk]

/-- The staging loop fails on any input list containing an empty line. -/
theorem stageLoop_error_of_mem_nil (h : HostFs) (ls : List (List Nat)) :
    ∀ acc, [] ∈ ls → ∃ e, stageLoop h acc ls = .error e := by
  induction ls with
  | nil => intro acc hm; simp at hm
  | cons l ls ih =>
    intro acc hm
    rcases List.mem_cons.mp hm with hl | hm2
    · exact ⟨.sliceOutOfBounds [], by rw [← hl]; rfl⟩
    · cases hs : stageStep h acc l with
      | error e => exact ⟨e, by simp only [stageLoop]; rw [hs]⟩
      | ok acc1 =>
        obtain ⟨e, he⟩ := ih acc1 hm2
        exact ⟨e, by simp only [stageLoop]; rw [hs]; exact he⟩

/-- C9: the staging loop evaluates the byte slice `line[1..]` before checking
whether the line starts with a path separator, so the step on an empty line
hits an out-of-bounds slice (even though the line does not start with `/`); as
a consequence the staging run is total only for inputs with no empty lines,
while every non-empty line not starting with `/` is silently discarded — no
symlink staged and no error. -/
theorem C9_stage_loop_byte_slice (h : HostFs) (acc : Staging × List (List Nat))
    (line : List Nat) (ls : List (List Nat)) :
    (([] : List Nat).head? ≠ some sep ∧
      stageStep h acc [] = .error (.sliceOutOfBounds [])) ∧
    ([] ∈ ls → ∃ e, stage_libs h ls = .error e) ∧
    (line ≠ [] → line.head? ≠ some sep → stageStep h acc line = .ok acc) := by
  refine ⟨⟨by simp, stageStep_empty_line h acc⟩, ?_, stageStep_skip h acc line⟩
  intro hm
  exact stageLoop_error_of_mem_nil h ls ([], []) hm

/-- C9 witness: concrete instantiation — an input containing the empty line
fails, and the `linux-vdso.so.1` pseudo-entry is silently discarded. -/
theorem C9_witness :
    (([] : List Nat).head? ≠ some sep ∧
      stageStep hostLibs ([], []) [] = .error (.sliceOutOfBounds [])) ∧
    (∃ e, stage_libs hostLibs [bytes "/usr/lib/libfoo.so.1", []] = .error e) ∧
    stageStep hostLibs ([], []) (bytes "linux-vdso.so.1") = .ok ([], []) := by
  obtain ⟨h1, h2, h3⟩ :=
    C9_stage_loop_byte_slice hostLibs ([], []) (bytes "linux-vdso.so.1")
      [bytes "/usr/lib/libfoo.so.1", []]
  exact ⟨h1, h2 (by decide), h3 (by decide) (by decide)⟩

/-- C2 counterexample: two dependency lines with the same base filename
`libssl.so.3` (both files present on the host).  The second one is NOT
silently skipped: the duplicate check at main.rs line 108/109 tests
`<staging>/opt/lib/libssl.so.3`, which does not exist, so the loop reaches
`symlink` and fails with EEXIST — an error is raised, refuting the claim that
no error is raised and the later dependency is skipped. -/
theorem C2_cex_duplicate_basename_errors :
    stage_libs hostLibs
        [bytes "/usr/lib/libssl.so.3", bytes "/opt/lib/libssl.so.3"] =
      .error (.symlinkFailed (bytes "/opt/lib/libssl.so.3")) := rfl

/-- C2 (amended): at most one staged symlink per distinct base filename holds,
but not by a silent skip: for any two absolute dependency lines sharing a base
filename — where the second line's leading path component is not itself that
filename, so the (mistargeted) `<staging>/<path minus leading separator>`
existence check fails — the staging run aborts with a fatal symlink-creation
error on the second line. -/
theorem C2_duplicate_basename_fatal (h : HostFs) (l1 l2 f : List Nat)
    (h1 : l1.head? = some sep) (h2 : l2.head? = some sep)
    (hf1 : fileName l1 = some f) (hf2 : fileName l2 = some f)
    (hc2 : (comps l2).head? ≠ some f) :
    stage_libs h [l1, l2] = .error (.symlinkFailed l2) := by
  have hne1 : comps l1 ≠ [] := fileName_comps_ne_nil hf1
  have hne2 : comps l2 ≠ [] := fileName_comps_ne_nil hf2
  have hex1 : stagedJoinExists h [] (l1.drop 1) = false := by
    apply stagedJoinExists_nil_staging
    rw [comps_drop_one h1]
    exact hne1
  have hstep1 := stageStep_creates h ([], []) l1 f h1 hf1 hex1 rfl
  have hex2 : stagedJoinExists h [(f, l1)] (l2.drop 1) = false := by
    apply stagedJoinExists_single_ne
    · rw [comps_drop_one h2]; exact hne2
    · rw [comps_drop_one h2]; exact hc2
  have hstep2 := stageStep_dup h ([(f, l1)], [f]) l2 f h2 hf2 hex2 (by
    simp [stagingLookup, List.find?])
  unfold stage_libs
  simp only [stageLoop, hstep1, hstep2, List.nil_append]

/-- C2 witness for the amended theorem: two libraries named `libssl.so.3` in
different directories make the run fail on the second one. -/
theorem C2_witness :
    stage_libs hostLibs
        [bytes "/usr/lib/libssl.so.3", bytes "/opt/lib/libssl.so.3"] =
      .error (.symlinkFailed (bytes "/opt/lib/libssl.so.3")) :=
  C2_duplicate_basename_fatal hostLibs (bytes "/usr/lib/libssl.so.3")
    (bytes "/opt/lib/libssl.so.3") (bytes "libssl.so.3")
    (by decide) (by decide) (by decide) (by decide) (by decide)

/-- C3 counterexample: the staging directory is erased at the start of every
run (`fs_extra::dir::create(lib_dir_staged, true)`, main.rs line 104), so a
second run with the same input is byte-for-byte the same computation as the
first: it re-creates the symlink and returns the full (non-empty) list again,
refuting the claim that a rerun creates zero symlinks and returns an empty
list. -/
theorem C3_cex_second_run_returns_full_list :
    stage_libs hostLibs [bytes "/usr/lib/libfoo.so.1"] =
      .ok ([(bytes "libfoo.so.1", bytes "/usr/lib/libfoo.so.1")],
           [bytes "libfoo.so.1"]) ∧
    [bytes "libfoo.so.1"] ≠ ([] : List (List Nat)) :=
  ⟨rfl, by decide⟩

/-- The staging loop stages every line when all lines are absolute, have a
filename, have pairwise distinct filenames, no later line's leading component
equals an earlier line's filename, and nothing relevant is already staged. -/
theorem stageLoop_all_fresh (h : HostFs) (ls : List (List Nat)) :
    ∀ accS accN,
    (∀ l ∈ ls, l.head? = some sep) →
    (∀ l ∈ ls, (fileName l).isSome) →
    List.Pairwise
      (fun a b => fileName a ≠ fileName b ∧ (comps b).head? ≠ fileName a) ls →
    (∀ l ∈ ls, stagedJoinExists h accS (l.drop 1) = false) →
    (∀ l ∈ ls, ∀ f, fileName l = some f → stagingLookup accS f = none) →
    stageLoop h (accS, accN) ls =
      .ok (accS ++ ls.map (fun l => ((fileName l).getD [], l)),
           accN ++ ls.map (fun l => (fileName l).getD [])) := by
  induction ls with
  | nil => intro accS accN _ _ _ _ _; simp [stageLoop]
  | cons l ls ih =>
    intro accS accN habs hfn hpw hex hlk
    obtain ⟨f, hf⟩ := Option.isSome_iff_exists.mp (hfn l (by simp))
    have hhead := List.pairwise_cons.mp hpw
    have hstep := stageStep_creates h (accS, accN) l f (habs l (by simp)) hf
      (hex l (by simp)) (hlk l (by simp) f hf)
    simp only [stageLoop, hstep]
    have hrest := ih (accS ++ [(f, l)]) (accN ++ [f])
      (fun x hx => habs x (by simp [hx]))
      (fun x hx => hfn x (by simp [hx]))
      hpw.of_cons
      (fun x hx => by
        apply stagedJoinExists_append_false h accS (f, l) (x.drop 1)
          (hex x (by simp [hx]))
        intro c rest hc hcf
        have hrel := (hhead.1 x hx).2
        rw [comps_drop_one (habs x (by simp [hx]))] at hc
        rw [hc] at hrel
        exact hrel (by simp [hcf, hf])
        )
      (fun x hx g hg => by
        rw [stagingLookup_append accS (f, l) g]
        · exact hlk x (by simp [hx]) g hg
        · intro hfg
          have hxf := (hhead.1 x hx).1
          rw [hf, hg] at hxf
          exact hxf (congrArg some (by simpa using hfg)))
    rw [hrest]
    simp [hf, List.append_assoc]

/-- C3 (amended): the staging directory is erased at the start of every run,
so each run (first or repeated) behaves identically: for absolute library
paths with pairwise-distinct base filenames (none of which is also the
leading path component of a later path), every run creates exactly one
symlink per path and returns the full list of created symlinks — a second run
returns that same full list again, not an empty one. -/
theorem C3_each_run_stages_all (h : HostFs) (ls : List (List Nat))
    (habs : ∀ l ∈ ls, l.head? = some sep)
    (hfn : ∀ l ∈ ls, (fileName l).isSome)
    (hpw : List.Pairwise
      (fun a b => fileName a ≠ fileName b ∧ (comps b).head? ≠ fileName a) ls) :
    stage_libs h ls =
      .ok (ls.map (fun l => ((fileName l).getD [], l)),
           ls.map (fun l => (fileName l).getD [])) ∧
    (ls.map (fun l => (fileName l).getD [])).length = ls.length := by
  constructor
  · unfold stage_libs
    have hbase := stageLoop_all_fresh h ls [] [] habs hfn hpw
      (fun l hl => by
        apply stagedJoinExists_nil_staging
        rw [comps_drop_one (habs l hl)]
        exact fileName_comps_ne_nil
          (Option.isSome_iff_exists.mp (hfn l hl)).choose_spec)
      (fun l _ f _ => rfl)
    simpa using hbase
  · simp

/-- C3 witness: two ordinary libraries under `/usr/lib` — each run returns
both staged names. -/
theorem C3_witness :
    stage_libs hostLibs [bytes "/usr/lib/libfoo.so.1", bytes "/usr/lib/libbar.so.2"] =
      .ok ([(bytes "libfoo.so.1", bytes "/usr/lib/libfoo.so.1"),
            (bytes "libbar.so.2", bytes "/usr/lib/libbar.so.2")],
           [bytes "libfoo.so.1", bytes "libbar.so.2"]) ∧
    [bytes "libfoo.so.1", bytes "libbar.so.2"].length =
      [bytes "/usr/lib/libfoo.so.1", bytes "/usr/lib/libbar.so.2"].length := by
  have hres := C3_each_run_stages_all hostLibs
    [bytes "/usr/lib/libfoo.so.1", bytes "/usr/lib/libbar.so.2"]
    (by decide) (by decide) (by decide)
  exact ⟨hres.1.trans rfl, by decide⟩

/-- C6: the exclusion filter is a pure predicate of the filename and the
pattern set, and reordering the pattern list never changes which filenames
are excluded. -/
theorem C6_exclusion_order_independent (pats1 pats2 : List (List Nat))
    (name : List Nat) (hperm : pats1.Perm pats2) :
    excluded pats1 name = excluded pats2 name := by
  induction hperm with
  | nil => rfl
  | cons x h12 ih =>
    simp only [excluded, List.any_cons] at ih ⊢
    rw [ih]
  | swap x y l =>
    simp only [excluded, List.any_cons]
    rw [← Bool.or_assoc, ← Bool.or_assoc,
      Bool.or_comm (globMatch y name) (globMatch x name)]
  | trans h1 h2 ih1 ih2 => exact ih1.trans ih2

/-- C6 witness: swapping two concrete patterns leaves the verdict on
`libssl.so.3` unchanged. -/
theorem C6_witness :
    excluded [bytes "libssl*", bytes "libcrypto*"] (bytes "libssl.so.3") =
      excluded [bytes "libcrypto*", bytes "libssl*"] (bytes "libssl.so.3") :=
  C6_exclusion_order_independent
    [bytes "libssl*", bytes "libcrypto*"]
    [bytes "libcrypto*", bytes "libssl*"]
    (bytes "libssl.so.3")
    (List.Perm.swap (bytes "libcrypto*") (bytes "libssl*") [])

/-- An absolute path with a filename has a non-empty parent path. -/
theorem parentPath_abs {p f : List Nat} (hhd : p.head? = some sep)
    (hf : fileName p = some f) :
    ∃ par, parentPath p = some par ∧ par.isEmpty = false := by
  have hne := fileName_comps_ne_nil hf
  unfold parentPath
  cases hc : comps p with
  | nil => exact absurd hc hne
  | cons c cs =>
    refine ⟨sep :: joinComps ((c :: cs).dropLast), ?_, rfl⟩
    simp [hhd]

/-- Two absolute paths agreeing after the leading byte are equal. -/
theorem abs_eq_of_drop_eq {p q : List Nat} (hp : p.head? = some sep)
    (hq : q.head? = some sep) (h : p.drop 1 = q.drop 1) : p = q := by
  cases p with
  | nil => simp at hp
  | cons a p1 =>
    cases q with
    | nil => simp at hq
    | cons b q1 =>
      simp only [List.head?_cons, Option.some.injEq] at hp hq
      simp only [List.drop_succ_cons, List.drop_zero] at h
      rw [hp, hq, h]

/-- Rust `Path::join` with a non-absolute argument appends behind a separator. -/
theorem joinPath_eq_append {base arg : List Nat} (h : arg.head? ≠ some sep) :
    joinPath base arg = base ++ sep :: arg := if_neg h

/-- Rust `Path::join` is injective in non-absolute arguments. -/
theorem joinPath_inj_nonabs {root x y : List Nat} (hx : x.head? ≠ some sep)
    (hy : y.head? ≠ some sep) (h : joinPath root x = joinPath root y) :
    x = y := by
  rw [joinPath_eq_append hx, joinPath_eq_append hy] at h
  have := (List.append_right_inj root).mp h
  simpa using this

/-- Success and exact characterization of the writes of the materializer
loop, for staged-shaped entries whose non-excluded targets exist on the
host. -/
theorem matLoop_ok_char (h : HostFs) (pats : List (List Nat))
    (root : List Nat) (entries : Staging) :
    ∀ ws0 : Writes,
    (∀ e ∈ entries, e.2.head? = some sep ∧ fileName e.2 = some e.1) →
    (∀ e ∈ entries, excluded pats e.1 = false → (hostContent h e.2).isSome) →
    ∃ ws, matLoop h pats root ws0 entries = .ok ws ∧
      ∀ w, w ∈ ws ↔ (w ∈ ws0 ∨ ∃ e ∈ entries, excluded pats e.1 = false ∧
        w.1 = joinPath root (e.2.drop 1) ∧ hostContent h e.2 = some w.2) := by
  induction entries with
  | nil =>
    intro ws0 _ _
    exact ⟨ws0, rfl, by simp⟩
  | cons e es ih =>
    intro ws0 hshape hhost
    have he := hshape e (by simp)
    cases hexc : excluded pats e.1 with
    | true =>
      have hstep : matStep h pats root ws0 e = .ok ws0 := by
        simp [matStep, hexc]
      obtain ⟨ws, hws, hchar⟩ := ih ws0
        (fun x hx => hshape x (by simp [hx]))
        (fun x hx => hhost x (by simp [hx]))
      refine ⟨ws, by simp only [matLoop, hstep]; exact hws, ?_⟩
      intro w
      rw [hchar w]
      constructor
      · rintro (hw | ⟨x, hx, hxe⟩)
        · exact Or.inl hw
        · exact Or.inr ⟨x, by simp [hx], hxe⟩
      · rintro (hw | ⟨x, hx, hfalse, hrest⟩)
        · exact Or.inl hw
        · rcases List.mem_cons.mp hx with hxe | hxm
          · subst hxe
            rw [hexc] at hfalse
            simp at hfalse
          · exact Or.inr ⟨x, hxm, hfalse, hrest⟩
    | false =>
      obtain ⟨par, hpar, hparne⟩ := parentPath_abs he.1 he.2
      obtain ⟨c, hc⟩ :=
        Option.isSome_iff_exists.mp (hhost e (by simp) hexc)
      have hstep : matStep h pats root ws0 e =
          .ok (ws0 ++ [(joinPath root (e.2.drop 1), c)]) := by
        simp [matStep, hexc, hpar, hparne, hc]
      obtain ⟨ws, hws, hchar⟩ := ih (ws0 ++ [(joinPath root (e.2.drop 1), c)])
        (fun x hx => hshape x (by simp [hx]))
        (fun x hx => hhost x (by simp [hx]))
      refine ⟨ws, by simp only [matLoop, hstep]; exact hws, ?_⟩
      intro w
      rw [hchar w]
      constructor
      · rintro (hw | ⟨x, hx, hxe⟩)
        · rcases List.mem_append.mp hw with hw0 | hw1
          · exact Or.inl hw0
          · rcases List.mem_singleton.mp hw1 with hwe
            refine Or.inr ⟨e, by simp, hexc, ?_, ?_⟩
            · rw [hwe]
            · rw [hwe, hc]
        · exact Or.inr ⟨x, by simp [hx], hxe⟩
      · rintro (hw | ⟨x, hx, hfalse, hdest, hcont⟩)
        · exact Or.inl (List.mem_append.mpr (Or.inl hw))
        · rcases List.mem_cons.mp hx with hxe | hxm
          · subst hxe
            refine Or.inl (List.mem_append.mpr (Or.inr ?_))
            rw [hc] at hcont
            have hw2 : w.2 = c := by
              have := hcont.symm
              simpa using this
            have hw : w = (joinPath root (x.2.drop 1), c) := by
              rw [← hdest, ← hw2]
            exact List.mem_singleton.mpr hw
          · exact Or.inr ⟨x, hxm, hfalse, hdest, hcont⟩

/-- C1: for every staged library entry whose symlink target is an absolute
path `P` (entry name = base filename of `P`, as `stage_libs` creates them),
the materializer writes a file at `<bundle_root>/<P minus its leading
separator>` whose content equals the host file at `P`, and when the base
filename matches an exclusion pattern nothing at all is written at that
destination. -/
theorem C1_materializer_mirrors_targets (h : HostFs) (pats : List (List Nat))
    (root : List Nat) (entries : Staging)
    (hshape : ∀ e ∈ entries, e.2.head? = some sep ∧
      (e.2.drop 1).head? ≠ some sep ∧ fileName e.2 = some e.1)
    (hhost : ∀ e ∈ entries, excluded pats e.1 = false →
      (hostContent h e.2).isSome) :
    ∃ ws, materialize h pats root entries = .ok ws ∧
      (∀ e ∈ entries, excluded pats e.1 = false →
        ∀ c, hostContent h e.2 = some c →
          (joinPath root (e.2.drop 1), c) ∈ ws) ∧
      (∀ e ∈ entries, excluded pats e.1 = true →
        ∀ c, (joinPath root (e.2.drop 1), c) ∉ ws) := by
  obtain ⟨ws, hws, hchar⟩ := matLoop_ok_char h pats root entries []
    (fun e he => ⟨(hshape e he).1, (hshape e he).2.2⟩) hhost
  refine ⟨ws, hws, ?_, ?_⟩
  · intro e he hexc c hc
    exact (hchar _).mpr (Or.inr ⟨e, he, hexc, rfl, hc⟩)
  · intro e he hexc c hmem
    rcases (hchar _).mp hmem with hw0 | ⟨x, hx, hfalse, hdest, _⟩
    · simp at hw0
    · have hdrop : e.2.drop 1 = x.2.drop 1 :=
        joinPath_inj_nonabs (hshape e he).2.1 (hshape x hx).2.1 hdest
      have hexeq : e.2 = x.2 :=
        abs_eq_of_drop_eq (hshape e he).1 (hshape x hx).1 hdrop
      have hname : e.1 = x.1 := by
        have h1 := (hshape e he).2.2
        have h2 := (hshape x hx).2.2
        rw [hexeq] at h1
        rw [h1] at h2
        simpa using h2
      rw [← hname] at hfalse
      rw [hexc] at hfalse
      simp at hfalse

/-- C1 witness: two staged libraries, pattern `libbar.*` excluding the
second; the bundle receives `usr/lib/libfoo.so.1` with the host bytes and
nothing at `usr/lib/libbar.so.2`. -/
theorem C1_witness :
    ∃ ws, materialize hostLibs [bytes "libbar.*"] (bytes "/t/app.AppDir")
        [(bytes "libfoo.so.1", bytes "/usr/lib/libfoo.so.1"),
         (bytes "libbar.so.2", bytes "/usr/lib/libbar.so.2")] = .ok ws ∧
      (∀ e ∈ [(bytes "libfoo.so.1", bytes "/usr/lib/libfoo.so.1"),
              (bytes "libbar.so.2", bytes "/usr/lib/libbar.so.2")],
        excluded [bytes "libbar.*"] e.1 = false →
        ∀ c, hostContent hostLibs e.2 = some c →
          (joinPath (bytes "/t/app.AppDir") (e.2.drop 1), c) ∈ ws) ∧
      (∀ e ∈ [(bytes "libfoo.so.1", bytes "/usr/lib/libfoo.so.1"),
              (bytes "libbar.so.2", bytes "/usr/lib/libbar.so.2")],
        excluded [bytes "libbar.*"] e.1 = true →
        ∀ c, (joinPath (bytes "/t/app.AppDir") (e.2.drop 1), c) ∉ ws) :=
  C1_materializer_mirrors_targets hostLibs [bytes "libbar.*"]
    (bytes "/t/app.AppDir")
    [(bytes "libfoo.so.1", bytes "/usr/lib/libfoo.so.1"),
     (bytes "libbar.so.2", bytes "/usr/lib/libbar.so.2")]
    (by decide) (by decide)

/-- C5 counterexample: with a successful build and the invalid glob pattern
"[" configured, the run does fail with the configuration error — but only
after the external build step was invoked: the trace already contains the
build event, refuting "before any build work begins / before the external
build step is invoked" (glob validation happens at main.rs lines 203-211,
after the build at lines 134-147). -/
theorem C5_cex_build_invoked_before_glob_validation :
    mainRun envGood cfgBadGlob =
      (⟨[Ev.build], []⟩, some (.invalidGlob (bytes "["))) ∧
    Ev.build ∈ (mainRun envGood cfgBadGlob).1.evs :=
  ⟨rfl, by decide⟩

/-- C5 (amended): an invalid glob in `auto_link_exclude_list` is fatal after
the external build step but before any per-binary bundle work: when the build
succeeds, the run stops with the invalid-glob configuration error and its
trace consists of the build event alone. -/
theorem C5_invalid_glob_fatal_after_build (env : Env) (cfg : Config)
    (hbuild : env.buildOk = true)
    (hinv : ∃ p ∈ cfg.excludeRaw, patternOk p = false) :
    ∃ q, patternOk q = false ∧
      mainRun env cfg = (⟨[Ev.build], []⟩, some (.invalidGlob q)) := by
  obtain ⟨p, hp, hfail⟩ := hinv
  cases hf : cfg.excludeRaw.find? (fun x => !patternOk x) with
  | none =>
    exfalso
    rw [List.find?_eq_none] at hf
    exact hf p hp (by simp [hfail])
  | some q =>
    have hq := List.find?_some hf
    refine ⟨q, by simpa using hq, ?_⟩
    simp [mainRun, hbuild, hf]

/-- C5 witness: the amended theorem at the concrete bad configuration. -/
theorem C5_witness :
    ∃ q, patternOk q = false ∧
      mainRun envGood cfgBadGlob =
        (⟨[Ev.build], []⟩, some (.invalidGlob q)) :=
  C5_invalid_glob_fatal_after_build envGood cfgBadGlob (by decide)
    ⟨bytes "[", by decide, by decide⟩

/-- C7: when the built binary is absent from the expected
`<target_dir>/<target>/<name>` location (plain bundle state: auto-link off and
no stale staging directory), the per-binary run fails with the path-not-found
error after attempting the copy, and writes nothing at all — in particular no
`usr/bin` entry. -/
theorem C7_missing_binary_fails (env : Env) (cfg : Config)
    (pats : List (List Nat)) (st : RunState) (b : Option (List Nat))
    (hauto : cfg.autoLink = false)
    (hpre : env.libsPre (joinPath (joinPath env.targetDir
      ((b.getD cfg.pkgName) ++ bytes ".AppDir")) (bytes "libs")) = none)
    (hmiss : hostContent env.host (joinPath (joinPath env.targetDir env.target)
      (b.getD cfg.pkgName)) = none) :
    runBin env cfg pats st b =
      (⟨st.evs ++ [Ev.binCopy (b.getD cfg.pkgName)], st.out⟩,
       some (.binaryNotFound
         (joinPath (joinPath env.targetDir env.target) (b.getD cfg.pkgName)))) := by
  simp [runBin, hauto, hpre, hmiss]

/-- C7 witness: a concrete environment with no built binary on the host. -/
theorem C7_witness :
    runBin envNoBin cfgGood [] ⟨[Ev.build], []⟩ none =
      (⟨[Ev.build, Ev.binCopy (bytes "app")], []⟩,
       some (.binaryNotFound (bytes "/t/release/app"))) := by
  have h := C7_missing_binary_fails envNoBin cfgGood [] ⟨[Ev.build], []⟩ none
    (by decide) (by decide) (by decide)
  exact h.trans (by decide)

/-- Structure of a successful per-binary run: the binary exists on the host,
the runner exists, and the writes are the staged-library copies followed by
the `usr/bin` binary copy, the icon, the desktop entry, and AppRun. -/
theorem runBin_ok_structure (env : Env) (cfg : Config) (pats : List (List Nat))
    (st : RunState) (b : Option (List Nat)) (st1 : RunState)
    (hrun : runBin env cfg pats st b = (st1, none)) :
    ∃ ws bc rc,
      hostContent env.host (joinPath (joinPath env.targetDir env.target)
        (b.getD cfg.pkgName)) = some bc ∧
      env.runner = some rc ∧
      st1.out = st.out ++ ws ++
        [(joinPath (joinPath env.targetDir (b.getD cfg.pkgName ++ bytes ".AppDir"))
            (bytes "usr/bin/" ++ b.getD cfg.pkgName), bc)] ++
        [(joinPath (joinPath env.targetDir (b.getD cfg.pkgName ++ bytes ".AppDir"))
            (bytes "icon.png"), env.icon.getD [])] ++
        [(joinPath (joinPath env.targetDir (b.getD cfg.pkgName ++ bytes ".AppDir"))
            (bytes "cargo-appimage.desktop"), desktopContent (b.getD cfg.pkgName))] ++
        [(joinPath (joinPath env.targetDir (b.getD cfg.pkgName ++ bytes ".AppDir"))
            (bytes "AppRun"), rc)] := by
  simp only [runBin] at hrun
  split at hrun
  · simp at hrun
  · split at hrun
    · simp at hrun
    · split at hrun
      · simp at hrun
      · split at hrun
        · simp at hrun
        · split at hrun
          · simp at hrun
          · split at hrun
            · simp at hrun
            · rename_i sE eOpt hstaged mE ws hmat bOpt bc hbc hass rOpt rc hrc htool
              rw [Prod.mk.injEq] at hrun
              obtain ⟨h1, -⟩ := hrun
              subst h1
              exact ⟨ws, bc, rc, hbc, hrc, rfl⟩

/-- C8: in every successful per-binary run the icon file exists in the bundle
root — with the host icon's bytes if `./icon.png` is present, as an empty
placeholder otherwise — so the file referenced by the desktop entry is there
in both cases and absence of the icon is not an error. -/
theorem C8_icon_always_present (env : Env) (cfg : Config)
    (pats : List (List Nat)) (st : RunState) (b : Option (List Nat))
    (st1 : RunState) (hrun : runBin env cfg pats st b = (st1, none)) :
    (joinPath (joinPath env.targetDir ((b.getD cfg.pkgName) ++ bytes ".AppDir"))
      (bytes "icon.png"), env.icon.getD []) ∈ st1.out := by
  obtain ⟨ws, bc, rc, -, -, hout⟩ :=
    runBin_ok_structure env cfg pats st b st1 hrun
  rw [hout]
  simp

/-- C8 witness: a successful run with no host icon leaves the empty
placeholder `icon.png` in the bundle. -/
theorem C8_witness :
    (bytes "/t/app.AppDir/icon.png", ([] : List Nat)) ∈
      (runBin envGood cfgGood [] ⟨[Ev.build], []⟩ none).1.out := by
  have h := C8_icon_always_present envGood cfgGood [] ⟨[Ev.build], []⟩ none
    (runBin envGood cfgGood [] ⟨[Ev.build], []⟩ none).1 rfl
  exact h

/-- C10: a bin target declared without an explicit name inherits the package
name for every derived output of a successful run: the bundle directory is
`<package_name>.AppDir`, the binary copy lands at `usr/bin/<package_name>`,
and the desktop entry (see `desktopContent`) uses the package name as both
display name and executable entry. -/
theorem C10_default_name_uses_package (env : Env) (cfg : Config)
    (pats : List (List Nat)) (st : RunState) (st1 : RunState)
    (hrun : runBin env cfg pats st none = (st1, none)) :
    ∃ c, hostContent env.host (joinPath (joinPath env.targetDir env.target)
        cfg.pkgName) = some c ∧
      (joinPath (joinPath env.targetDir (cfg.pkgName ++ bytes ".AppDir"))
        (bytes "usr/bin/" ++ cfg.pkgName), c) ∈ st1.out ∧
      (joinPath (joinPath env.targetDir (cfg.pkgName ++ bytes ".AppDir"))
        (bytes "cargo-appimage.desktop"), desktopContent cfg.pkgName) ∈ st1.out := by
  obtain ⟨ws, bc, rc, hbc, -, hout⟩ :=
    runBin_ok_structure env cfg pats st none st1 hrun
  refine ⟨bc, by simpa using hbc, ?_, ?_⟩ <;> rw [hout] <;> simp

/-- C10 witness: the unnamed bin of package `app` produces
`/t/app.AppDir/usr/bin/app` and the desktop entry naming `app`. -/
theorem C10_witness :
    ∃ c, hostContent envGood.host (joinPath (joinPath envGood.targetDir
        envGood.target) cfgGood.pkgName) = some c ∧
      (joinPath (joinPath envGood.targetDir (cfgGood.pkgName ++ bytes ".AppDir"))
        (bytes "usr/bin/" ++ cfgGood.pkgName), c) ∈
        (runBin envGood cfgGood [] ⟨[Ev.build], []⟩ none).1.out ∧
      (joinPath (joinPath envGood.targetDir (cfgGood.pkgName ++ bytes ".AppDir"))
        (bytes "cargo-appimage.desktop"), desktopContent cfgGood.pkgName) ∈
        (runBin envGood cfgGood [] ⟨[Ev.build], []⟩ none).1.out :=
  C10_default_name_uses_package envGood cfgGood [] ⟨[Ev.build], []⟩
    (runBin envGood cfgGood [] ⟨[Ev.build], []⟩ none).1 rfl

/-- Prefix testing distributes over a common left append. -/
theorem isPrefixOf_append_cancel (a x y : List Nat) :
    (a ++ x).isPrefixOf (a ++ y) = x.isPrefixOf y := by
  induction a with
  | nil => rfl
  | cons b a ih => simp [List.isPrefixOf, ih]

/-- The head of an append with a non-empty left part. -/
theorem head?_append_left {x : List Nat} (y : List Nat) (hx : x ≠ []) :
    (x ++ y).head? = x.head? := by
  cases x with
  | nil => exact absurd rfl hx
  | cons a t => rfl

/-- A destination `appdir.join(tail)` with a non-absolute tail that does not
start with `usr/lib` is not under `appdir.join("usr/lib")`. -/
theorem joinPath_usrlib_not_pref (appdir tail : List Nat)
    (ht : tail.head? ≠ some sep)
    (hfalse : (bytes "usr/lib").isPrefixOf tail = false) :
    (joinPath appdir (bytes "usr/lib")).isPrefixOf (joinPath appdir tail) =
      false := by
  rw [joinPath_eq_append (by decide), joinPath_eq_append ht]
  rw [show appdir ++ sep :: bytes "usr/lib" = appdir ++ (sep :: bytes "usr/lib") from rfl]
  rw [show appdir ++ sep :: tail = appdir ++ (sep :: tail) from rfl]
  rw [isPrefixOf_append_cancel]
  simp [List.isPrefixOf, hfalse]

/-- C4 counterexample: with `auto_link` false but a stale staging directory
left over at `/t/app.AppDir/libs`, the materializer loop still runs (line 248
only tests `lib_dir_staged.exists()`) and copies `/usr/lib/libx.so` into the
bundle's `usr/lib` subtree — refuting "the Materializer is never invoked and
no usr/lib subtree is created". -/
theorem C4_cex_stale_libs_materialized :
    cfgGood.autoLink = false ∧
    Ev.matCall (bytes "app") ∈ (runBin envStale cfgGood [] ⟨[], []⟩ none).1.evs ∧
    (bytes "/t/app.AppDir/usr/lib/libx.so", bytes "XLIB") ∈
      (runBin envStale cfgGood [] ⟨[], []⟩ none).1.out := by
  decide

/-- C4 (amended): with `auto_link` false, neither the loader-dependency
lister nor the staging symlinker is ever invoked, and — provided the
binary's staging directory does not already exist from a previous run — the
materializer is not invoked either and every new write stays outside the
bundle's `usr/lib` subtree, regardless of what the loader inspector would
report. -/
theorem C4_no_autolink_frame (env : Env) (cfg : Config) (pats : List (List Nat))
    (st : RunState) (b : Option (List Nat))
    (hauto : cfg.autoLink = false)
    (hpre : env.libsPre (joinPath (joinPath env.targetDir
      ((b.getD cfg.pkgName) ++ bytes ".AppDir")) (bytes "libs")) = none) :
    (Ev.stageCall (b.getD cfg.pkgName) ∉ st.evs →
      Ev.stageCall (b.getD cfg.pkgName) ∉ (runBin env cfg pats st b).1.evs) ∧
    (Ev.matCall (b.getD cfg.pkgName) ∉ st.evs →
      Ev.matCall (b.getD cfg.pkgName) ∉ (runBin env cfg pats st b).1.evs) ∧
    (∀ w ∈ (runBin env cfg pats st b).1.out, w ∈ st.out ∨
      (joinPath (joinPath env.targetDir ((b.getD cfg.pkgName) ++ bytes ".AppDir"))
        (bytes "usr/lib")).isPrefixOf w.1 = false) := by
  have hbin : (bytes "usr/lib").isPrefixOf
      (bytes "usr/bin/" ++ b.getD cfg.pkgName) = false := rfl
  have hbinh : (bytes "usr/bin/" ++ b.getD cfg.pkgName).head? ≠ some sep := by
    rw [head?_append_left _ (by decide)]
    decide
  have hp1 : (joinPath (joinPath env.targetDir ((b.getD cfg.pkgName) ++
      bytes ".AppDir")) (bytes "usr/lib")).isPrefixOf
      (joinPath (joinPath env.targetDir ((b.getD cfg.pkgName) ++
        bytes ".AppDir")) (bytes "usr/bin/" ++ b.getD cfg.pkgName)) = false :=
    joinPath_usrlib_not_pref _ _ hbinh hbin
  have hp2 : (joinPath (joinPath env.targetDir ((b.getD cfg.pkgName) ++
      bytes ".AppDir")) (bytes "usr/lib")).isPrefixOf
      (joinPath (joinPath env.targetDir ((b.getD cfg.pkgName) ++
        bytes ".AppDir")) (bytes "icon.png")) = false :=
    joinPath_usrlib_not_pref _ _ (by decide) rfl
  have hp3 : (joinPath (joinPath env.targetDir ((b.getD cfg.pkgName) ++
      bytes ".AppDir")) (bytes "usr/lib")).isPrefixOf
      (joinPath (joinPath env.targetDir ((b.getD cfg.pkgName) ++
        bytes ".AppDir")) (bytes "cargo-appimage.desktop")) = false :=
    joinPath_usrlib_not_pref _ _ (by decide) rfl
  have hp4 : (joinPath (joinPath env.targetDir ((b.getD cfg.pkgName) ++
      bytes ".AppDir")) (bytes "usr/lib")).isPrefixOf
      (joinPath (joinPath env.targetDir ((b.getD cfg.pkgName) ++
        bytes ".AppDir")) (bytes "AppRun")) = false :=
    joinPath_usrlib_not_pref _ _ (by decide) rfl
  rcases hR : runBin env cfg pats st b with ⟨st1, err⟩
  simp only [runBin, hauto, hpre] at hR
  simp only [if_false, Bool.false_eq_true] at hR
  split at hR
  · rw [Prod.mk.injEq] at hR
    obtain ⟨h1, -⟩ := hR
    subst h1
    refine ⟨?_, ?_, ?_⟩
    · intro hn hm
      simp only [List.append_assoc] at hm
      rcases List.mem_append.mp hm with hm | hm
      · exact hn hm
      · simp at hm
    · intro hn hm
      simp only [List.append_assoc] at hm
      rcases List.mem_append.mp hm with hm | hm
      · exact hn hm
      · simp at hm
    · intro w hw
      exact Or.inl (by simpa using hw)
  · split at hR
    · rw [Prod.mk.injEq] at hR
      obtain ⟨h1, -⟩ := hR
      subst h1
      refine ⟨?_, ?_, ?_⟩
      · intro hn hm
        simp only [List.append_assoc] at hm
        rcases List.mem_append.mp hm with hm | hm
        · exact hn hm
        · simp at hm
      · intro hn hm
        simp only [List.append_assoc] at hm
        rcases List.mem_append.mp hm with hm | hm
        · exact hn hm
        · simp at hm
      · intro w hw
        simp only [List.append_assoc] at hw
        rcases List.mem_append.mp hw with hw | hw
        · exact Or.inl hw
        · simp only [List.nil_append, List.mem_append, List.mem_singleton, false_or,
            List.not_mem_nil, or_false] at hw
          rcases hw with hw | hw
          · exact Or.inr (by rw [hw]; exact hp1)
          · exact Or.inr (by rw [hw]; exact hp2)
    · split at hR
      · rw [Prod.mk.injEq] at hR
        obtain ⟨h1, -⟩ := hR
        subst h1
        refine ⟨?_, ?_, ?_⟩
        · intro hn hm
          simp only [List.append_assoc] at hm
          rcases List.mem_append.mp hm with hm | hm
          · exact hn hm
          · simp at hm
        · intro hn hm
          simp only [List.append_assoc] at hm
          rcases List.mem_append.mp hm with hm | hm
          · exact hn hm
          · simp at hm
        · intro w hw
          simp only [List.append_assoc] at hw
          rcases List.mem_append.mp hw with hw | hw
          · exact Or.inl hw
          · simp only [List.nil_append, List.mem_append, List.mem_singleton, false_or,
              List.not_mem_nil, or_false] at hw
            rcases hw with hw | hw | hw
            · exact Or.inr (by rw [hw]; exact hp1)
            · exact Or.inr (by rw [hw]; exact hp2)
            · exact Or.inr (by rw [hw]; exact hp3)
      · split at hR
        all_goals (
          rw [Prod.mk.injEq] at hR
          obtain ⟨h1, -⟩ := hR
          subst h1
          refine ⟨?_, ?_, ?_⟩
          · intro hn hm
            simp only [List.append_assoc] at hm
            rcases List.mem_append.mp hm with hm | hm
            · exact hn hm
            · simp at hm
          · intro hn hm
            simp only [List.append_assoc] at hm
            rcases List.mem_append.mp hm with hm | hm
            · exact hn hm
            · simp at hm
          · intro w hw
            simp only [List.append_assoc] at hw
            rcases List.mem_append.mp hw with hw | hw
            · exact Or.inl hw
            · simp only [List.nil_append, List.mem_append, List.mem_singleton, false_or,
                List.not_mem_nil, or_false] at hw
              rcases hw with hw | hw | hw | hw
              · exact Or.inr (by rw [hw]; exact hp1)
              · exact Or.inr (by rw [hw]; exact hp2)
              · exact Or.inr (by rw [hw]; exact hp3)
              · exact Or.inr (by rw [hw]; exact hp4))

/-- C4 witness: the amended theorem at a fresh concrete state. -/
theorem C4_witness :
    (Ev.stageCall (bytes "app") ∉ ([Ev.build] : List Ev) →
      Ev.stageCall (bytes "app") ∉
        (runBin envGood cfgGood [] ⟨[Ev.build], []⟩ none).1.evs) ∧
    (Ev.matCall (bytes "app") ∉ ([Ev.build] : List Ev) →
      Ev.matCall (bytes "app") ∉
        (runBin envGood cfgGood [] ⟨[Ev.build], []⟩ none).1.evs) ∧
    (∀ w ∈ (runBin envGood cfgGood [] ⟨[Ev.build], []⟩ none).1.out,
      w ∈ ([] : Writes) ∨
      (joinPath (joinPath (bytes "/t") (bytes "app" ++ bytes ".AppDir"))
        (bytes "usr/lib")).isPrefixOf w.1 = false) :=
  C4_no_autolink_frame envGood cfgGood [] ⟨[Ev.build], []⟩ none rfl rfl

end CargoAppimage
